import Mathlib

/-!
Shallow embedding of `viewflow/lock.py`: the three flow lock strategies
(`NoLock`, `SelectForUpdateLock`, `CacheLock`).

Each strategy's `lock(flow_class, process_pk)` context manager is embedded as a
function from an environment (per-attempt outcomes of the database and cache
calls, the random samples drawn, and the outcome of the caller's protected
work) to the list of observable effects the Python code performs, in order,
together with the overall outcome of the scope.

Conventions of the embedding:
* `Event.atomicEnter` / `Event.atomicExit exn` model entry into and exit from a
  `with transaction.atomic():` block; `exn = true` means an exception is
  propagating through the exit (Django rolls the transaction back),
  `exn = false` means the block is exited by normal control flow.
* `Event.selectForUpdate nowait` models the execution of the
  `select_for_update(nowait=...).exists()` query.
* `Event.existsCheck b` models `process.exists()` returning `b`.
* `Event.cacheAdd key ttl stored` models `cache.add(key, 1, expires)`
  returning `stored`; `Event.cacheDelete key` models `cache.delete(key)`.
* `Event.sleep t` models `time.sleep(t)` for the computed duration `t`.
* `Event.yieldWork` models the generator yielding to the caller's protected
  work.
* The caller's protected work is summarized by a `ScopeOutcome`: it either
  returns normally, raises an exception (identified by a natural number), or
  returns normally but the transaction commit itself fails.
-/

namespace Viewflow

/-- Observable effects performed by a lock context manager, in program order. -/
inductive Event
  | atomicEnter
  | atomicExit (exn : Bool)
  | selectForUpdate (nowait : Bool)
  | existsCheck (found : Bool)
  | cacheAdd (key : String) (ttl : ℕ) (stored : Bool)
  | cacheDelete (key : String)
  | sleep (t : ℚ)
  | yieldWork
  deriving DecidableEq, Repr

/-- Outcome of the caller's protected work inside the yielded scope: normal
return, an exception raised by the work (tagged by a number so identity of the
exception is trackable), or a failure of the surrounding transaction commit. -/
inductive ScopeOutcome
  | ok
  | workRaise (e : ℕ)
  | commitFail (e : ℕ)
  deriving DecidableEq, Repr

/-- Overall result of running a lock scope: normal completion, the protected
work's exception propagating out, a commit failure propagating out,
`FlowLockFailed` raised with its message, or the generator completing without
ever yielding. -/
inductive RunResult
  | ok
  | workErr (e : ℕ)
  | commitErr (e : ℕ)
  | lockFailed (msg : String)
  | noYield
  deriving DecidableEq, Repr

/-- Outcome of each row-lock attempt's `select_for_update(...).exists()` query:
the row exists and the lock was obtained, the database raised a contention
`DatabaseError`, or the query ran but found no record. -/
inductive SelectOutcome
  | locked
  | contention
  | notFound
  deriving DecidableEq, Repr

/-- Backoff duration: `(((i + 1) * random.random()) + 2 ** i) / 2.5` with the
random sample `r` made explicit. -/
def sleepTime (i : ℕ) (r : ℚ) : ℚ :=
  (((i : ℚ) + 1) * r + 2 ^ i) / (5 / 2)

/-- Exception surfaced to the Python caller of the `with` statement, derived
from the run result.  A `@contextmanager` generator that completes without
yielding makes `__enter__` raise a generic `RuntimeError`; all other results
map to their exceptions (or to no exception). -/
inductive PyExc
  | noError
  | flowLockFailed (msg : String)
  | runtimeError
  | workExc (e : ℕ)
  | commitExc (e : ℕ)
  deriving DecidableEq, Repr

/-- Maps a run result to the exception (if any) the Python caller observes. -/
def pyExcOf : RunResult → PyExc
  | RunResult.ok => PyExc.noError
  | RunResult.workErr e => PyExc.workExc e
  | RunResult.commitErr e => PyExc.commitExc e
  | RunResult.lockFailed m => PyExc.flowLockFailed m
  | RunResult.noYield => PyExc.runtimeError

/-- Configuration of the `NoLock` strategy (class `NoLock`, no fields). -/
structure NoLock where
  deriving DecidableEq, Repr

/-- Configuration of the `SelectForUpdateLock` strategy. -/
structure SelectForUpdateLock where
  nowait : Bool := true
  attempts : ℕ := 5
  deriving DecidableEq, Repr

/-- Configuration of the `CacheLock` strategy (the cache handle itself is part
of the environment, not the configuration). -/
structure CacheLock where
  attempts : ℕ := 5
  expires : ℕ := 120
  deriving DecidableEq, Repr

/-- Run of `NoLock`'s `lock(flow_class, process_pk)`: open a transaction,
yield, and let the transaction machinery commit or roll back. -/
def noLockRun (flowClass : String) (processPk : String) (work : ScopeOutcome) :
    List Event × RunResult :=
  match work with
  | ScopeOutcome.ok =>
    ([Event.atomicEnter, Event.yieldWork, Event.atomicExit false], RunResult.ok)
  | ScopeOutcome.workRaise e =>
    ([Event.atomicEnter, Event.yieldWork, Event.atomicExit true], RunResult.workErr e)
  | ScopeOutcome.commitFail e =>
    ([Event.atomicEnter, Event.yieldWork, Event.atomicExit true], RunResult.commitErr e)

/-- Loop body of `SelectForUpdateLock`'s `lock` generator.  `i` is the current
loop index, the last argument is the number of remaining iterations
(`attempts - i`).  `env i` gives the outcome of attempt `i`'s query, `rand i`
the random sample it would draw for backoff. -/
def sfuGo (nowait : Bool) (env : ℕ → SelectOutcome) (rand : ℕ → ℚ)
    (work : ScopeOutcome) (flowClass : String) (i : ℕ) :
    ℕ → List Event × RunResult
  | 0 => ([], RunResult.noYield)
  | r + 1 =>
    match env i with
    | SelectOutcome.locked =>
      match work with
      | ScopeOutcome.ok =>
        ([Event.atomicEnter, Event.selectForUpdate nowait, Event.yieldWork,
          Event.atomicExit false], RunResult.ok)
      | ScopeOutcome.workRaise e =>
        ([Event.atomicEnter, Event.selectForUpdate nowait, Event.yieldWork,
          Event.atomicExit true], RunResult.workErr e)
      | ScopeOutcome.commitFail e =>
        ([Event.atomicEnter, Event.selectForUpdate nowait, Event.yieldWork,
          Event.atomicExit true], RunResult.commitErr e)
    | _ =>
      if r = 0 then
        ([Event.atomicEnter, Event.selectForUpdate nowait, Event.atomicExit true],
         RunResult.lockFailed ("Lock failed for " ++ flowClass))
      else
        let rest := sfuGo nowait env rand work flowClass (i + 1) r
        (Event.atomicEnter :: Event.selectForUpdate nowait ::
           Event.sleep (sleepTime i (rand i)) :: Event.atomicExit false :: rest.1,
         rest.2)

/-- Run of `SelectForUpdateLock`'s `lock(flow_class, process_pk)`. -/
def sfuRun (l : SelectForUpdateLock) (env : ℕ → SelectOutcome) (rand : ℕ → ℚ)
    (work : ScopeOutcome) (flowClass : String) : List Event × RunResult :=
  sfuGo l.nowait env rand work flowClass 0 l.attempts

/-- Lock key computed by `CacheLock`:
`'django-viewflow-lock-{}/{}'.format(flow_class._meta.flow_label, process_pk)`. -/
def cacheKey (flowLabel : String) (processPk : String) : String :=
  "django-viewflow-lock-" ++ flowLabel ++ "/" ++ processPk

/-- Acquisition loop of `CacheLock`'s `lock` generator.  `pexists i` is the
result of attempt `i`'s `process.exists()` query, `addOk i` the result
`cache.add` would return if called on attempt `i`.  Returns the events of the
loop and whether the loop exited via `break` (lock acquired). -/
def cacheGo (key : String) (expires : ℕ) (pexists addOk : ℕ → Bool)
    (rand : ℕ → ℚ) (i : ℕ) : ℕ → List Event × Bool
  | 0 => ([], false)
  | r + 1 =>
    let tryEvents : List Event :=
      if pexists i then [Event.existsCheck true, Event.cacheAdd key expires (addOk i)]
      else [Event.existsCheck false]
    if pexists i && addOk i then
      (tryEvents, true)
    else if r = 0 then
      (tryEvents, false)
    else
      let rest := cacheGo key expires pexists addOk rand (i + 1) r
      (tryEvents ++ Event.sleep (sleepTime i (rand i)) :: rest.1, rest.2)

/-- Run of `CacheLock`'s `lock(flow_class, process_pk)`: the acquisition loop,
then — only if acquired — `try: with transaction.atomic(): yield` followed by
the `finally: cache.delete(key)`; if the loop exhausts without a `break`, the
`for`/`else` raises `FlowLockFailed`. -/
def cacheRun (l : CacheLock) (flowLabel processPk : String)
    (pexists addOk : ℕ → Bool) (rand : ℕ → ℚ) (work : ScopeOutcome)
    (flowClass : String) : List Event × RunResult :=
  let key := cacheKey flowLabel processPk
  let acq := cacheGo key l.expires pexists addOk rand 0 l.attempts
  if acq.2 then
    match work with
    | ScopeOutcome.ok =>
      (acq.1 ++ [Event.atomicEnter, Event.yieldWork, Event.atomicExit false,
        Event.cacheDelete key], RunResult.ok)
    | ScopeOutcome.workRaise e =>
      (acq.1 ++ [Event.atomicEnter, Event.yieldWork, Event.atomicExit true,
        Event.cacheDelete key], RunResult.workErr e)
    | ScopeOutcome.commitFail e =>
      (acq.1 ++ [Event.atomicEnter, Event.yieldWork, Event.atomicExit true,
        Event.cacheDelete key], RunResult.commitErr e)
  else
    (acq.1, RunResult.lockFailed ("Lock failed for " ++ flowClass))

/-- True of events that touch a lock resource: the row lock query, the cache
existence check, cache add/delete, and backoff sleeps. -/
def lockResourceEvent : Event → Bool
  | Event.selectForUpdate _ => true
  | Event.existsCheck _ => true
  | Event.cacheAdd _ _ _ => true
  | Event.cacheDelete _ => true
  | Event.sleep _ => true
  | _ => false

/-- True of `selectForUpdate` events (one per row-lock attempt). -/
def isSelectEvent : Event → Bool
  | Event.selectForUpdate _ => true
  | _ => false

/-- True of `sleep` events. -/
def isSleepEvent : Event → Bool
  | Event.sleep _ => true
  | _ => false

/-- True of `cacheAdd` events. -/
def isCacheAddEvent : Event → Bool
  | Event.cacheAdd _ _ _ => true
  | _ => false

/-- True of `lockFailed` results. -/
def isLockFailed : RunResult → Bool
  | RunResult.lockFailed _ => true
  | _ => false

/-- Checks that every `sleep` event in the trace occurs while exactly `d`
transactional scopes are open; `cur` is the number of scopes open before the
trace starts. -/
def allSleepsAtDepth (d : ℕ) : ℕ → List Event → Bool
  | _, [] => true
  | cur, Event.atomicEnter :: rest => allSleepsAtDepth d (cur + 1) rest
  | cur, Event.atomicExit _ :: rest => allSleepsAtDepth d (cur - 1) rest
  | cur, Event.sleep _ :: rest => (cur == d) && allSleepsAtDepth d cur rest
  | cur, _ :: rest => allSleepsAtDepth d cur rest

/-- Checks that every `sleep` event in the trace is immediately followed by a
normal (non-exceptional) exit of a transactional scope. -/
def sleepThenExit : List Event → Bool
  | [] => true
  | Event.sleep _ :: Event.atomicExit false :: rest => sleepThenExit rest
  | Event.sleep _ :: _ => false
  | _ :: rest => sleepThenExit rest

/-- True when the event either does not mention a cache key or mentions
exactly the key `k`. -/
def usesKey (k : String) : Event → Bool
  | Event.cacheAdd k2 _ _ => k2 == k
  | Event.cacheDelete k2 => k2 == k
  | _ => true

/-- Result of the scope as dictated by the protected work's outcome, when the
lock machinery itself does not fail. -/
def scopeResult : ScopeOutcome → RunResult
  | ScopeOutcome.ok => RunResult.ok
  | ScopeOutcome.workRaise e => RunResult.workErr e
  | ScopeOutcome.commitFail e => RunResult.commitErr e

/-- Every event emitted by the cache acquisition loop mentions no cache key
other than the loop's own `key`. -/
theorem cacheGo_usesKey (key : String) (expires : ℕ) (pexists addOk : ℕ → Bool)
    (rand : ℕ → ℚ) :
    ∀ r i, ((cacheGo key expires pexists addOk rand i r).1.all (usesKey key)) = true := by
  intro r
  induction r with
  | zero => intro i; rfl
  | succ r ih =>
    intro i
    simp only [cacheGo]
    by_cases hp : pexists i <;> by_cases ha : addOk i <;>
      by_cases hr : r = 0 <;>
        simp [hp, ha, hr, usesKey, ih (i + 1)]

/-- The cache acquisition loop never yields to the protected work. -/
theorem cacheGo_no_yield (key : String) (expires : ℕ) (pexists addOk : ℕ → Bool)
    (rand : ℕ → ℚ) :
    ∀ r i, Event.yieldWork ∉ (cacheGo key expires pexists addOk rand i r).1 := by
  intro r
  induction r with
  | zero => intro i; simp [cacheGo]
  | succ r ih =>
    intro i
    simp only [cacheGo]
    by_cases hp : pexists i <;> by_cases ha : addOk i <;>
      by_cases hr : r = 0 <;>
        simp [hp, ha, hr, ih (i + 1)]

/-- C4 counterexample: with flow type label `"f"` and process key `"1"` the
key actually used is `"django-viewflow-lock-f/1"`, not `"lock-f/1"` as the
claim states. -/
theorem cacheKey_not_lock_format :
    cacheKey "f" "1" ≠ "lock-" ++ "f" ++ "/" ++ "1" := by decide

/-- C4 (amended): the Cache-Mutex strategy computes its lock key as
`"django-viewflow-lock-" ++ flow type label ++ "/" ++ process key`, and every
cache insert-if-absent and delete performed by a run uses exactly that key. -/
theorem cacheKey_format (l : CacheLock) (flowLabel processPk : String)
    (pexists addOk : ℕ → Bool) (rand : ℕ → ℚ) (work : ScopeOutcome)
    (flowClass : String) :
    cacheKey flowLabel processPk =
      "django-viewflow-lock-" ++ flowLabel ++ "/" ++ processPk ∧
    ((cacheRun l flowLabel processPk pexists addOk rand work flowClass).1.all
      (usesKey (cacheKey flowLabel processPk))) = true := by
  refine ⟨rfl, ?_⟩
  have hgo := cacheGo_usesKey (cacheKey flowLabel processPk) l.expires pexists addOk
    rand l.attempts 0
  simp only [cacheRun]
  by_cases hacq :
      (cacheGo (cacheKey flowLabel processPk) l.expires pexists addOk rand 0
        l.attempts).2 = true
  · cases work <;> simp [hacq, List.all_append, hgo, usesKey]
  · simp only [Bool.not_eq_true] at hacq
    simp [hacq, hgo]

/-- C9: the No-Op strategy only opens a transactional scope and yields: its
trace contains no lock-resource event (no cache read/write, no row-lock query,
no sleep), it always yields to the protected work, and it never raises
`FlowLockFailed`; consequently a second acquisition on the same process key
also yields (no mutual exclusion). -/
theorem noLock_frame (flowClass processPk : String) (work : ScopeOutcome)
    (flowClass2 : String) (work2 : ScopeOutcome) :
    ((noLockRun flowClass processPk work).1.all
      (fun ev => !(lockResourceEvent ev))) = true ∧
    Event.yieldWork ∈ (noLockRun flowClass processPk work).1 ∧
    isLockFailed (noLockRun flowClass processPk work).2 = false ∧
    (noLockRun flowClass processPk ScopeOutcome.ok).2 = RunResult.ok ∧
    Event.yieldWork ∈ (noLockRun flowClass2 processPk work2).1 := by
  refine ⟨?_, ?_, ?_, rfl, ?_⟩ <;>
    cases work <;> cases work2 <;> simp [noLockRun, lockResourceEvent, isLockFailed]

/-- C10: with `attempts = 0` the Row-Lock generator completes without yielding
and without raising `FlowLockFailed` (the `with` statement then fails with a
generic `RuntimeError`), while the Cache-Mutex strategy's `for`/`else` raises
`FlowLockFailed` immediately with an empty trace. -/
theorem zero_attempts_edge (nowait : Bool) (env : ℕ → SelectOutcome)
    (rand rand2 : ℕ → ℚ) (work work2 : ScopeOutcome)
    (flowClass flowClass2 flowLabel processPk : String)
    (pexists addOk : ℕ → Bool) (expires : ℕ) :
    sfuRun ⟨nowait, 0⟩ env rand work flowClass = ([], RunResult.noYield) ∧
    pyExcOf (sfuRun ⟨nowait, 0⟩ env rand work flowClass).2 = PyExc.runtimeError ∧
    Event.yieldWork ∉ (sfuRun ⟨nowait, 0⟩ env rand work flowClass).1 ∧
    isLockFailed (sfuRun ⟨nowait, 0⟩ env rand work flowClass).2 = false ∧
    cacheRun ⟨0, expires⟩ flowLabel processPk pexists addOk rand2 work2 flowClass2 =
      ([], RunResult.lockFailed ("Lock failed for " ++ flowClass2)) ∧
    pyExcOf (cacheRun ⟨0, expires⟩ flowLabel processPk pexists addOk rand2 work2
      flowClass2).2 = PyExc.flowLockFailed ("Lock failed for " ++ flowClass2) := by
    refine ⟨rfl, rfl, ?_, rfl, rfl, rfl⟩
    simp [sfuRun, sfuGo]

/-- C8: `CacheLock` with `attempts = 2` against a cache that already holds the
key (and an existing process record): the first insert fails, exactly one
backoff sleep occurs, the second insert fails, and the run raises
`FlowLockFailed` without ever yielding to the protected work. -/
theorem cache_two_attempts_contended (flowLabel processPk : String)
    (rand : ℕ → ℚ) (work : ScopeOutcome) (flowClass : String) (expires : ℕ) :
    cacheRun ⟨2, expires⟩ flowLabel processPk (fun _ => true) (fun _ => false)
        rand work flowClass =
      ([Event.existsCheck true,
        Event.cacheAdd (cacheKey flowLabel processPk) expires false,
        Event.sleep (sleepTime 0 (rand 0)),
        Event.existsCheck true,
        Event.cacheAdd (cacheKey flowLabel processPk) expires false],
       RunResult.lockFailed ("Lock failed for " ++ flowClass)) ∧
    ((cacheRun ⟨2, expires⟩ flowLabel processPk (fun _ => true) (fun _ => false)
        rand work flowClass).1.countP isSleepEvent) = 1 ∧
    ((cacheRun ⟨2, expires⟩ flowLabel processPk (fun _ => true) (fun _ => false)
        rand work flowClass).1.countP isCacheAddEvent) = 2 ∧
    Event.yieldWork ∉ (cacheRun ⟨2, expires⟩ flowLabel processPk (fun _ => true)
        (fun _ => false) rand work flowClass).1 := by
  have h : cacheRun ⟨2, expires⟩ flowLabel processPk (fun _ => true) (fun _ => false)
      rand work flowClass =
      ([Event.existsCheck true,
        Event.cacheAdd (cacheKey flowLabel processPk) expires false,
        Event.sleep (sleepTime 0 (rand 0)),
        Event.existsCheck true,
        Event.cacheAdd (cacheKey flowLabel processPk) expires false],
       RunResult.lockFailed ("Lock failed for " ++ flowClass)) := by
    cases work <;> rfl
  refine ⟨h, ?_, ?_, ?_⟩ <;> rw [h] <;>
    simp [List.countP_cons, isSleepEvent, isCacheAddEvent]

/-- Flag of the transactional exit event produced when the protected work runs:
`true` exactly when an exception propagates through the exit. -/
def exitExn : ScopeOutcome → Bool
  | ScopeOutcome.ok => false
  | _ => true

/-- Unfolding of one row-lock attempt that acquires the lock. -/
theorem sfuGo_succ_locked (nowait : Bool) (env : ℕ → SelectOutcome) (rand : ℕ → ℚ)
    (work : ScopeOutcome) (flowClass : String) (i r : ℕ)
    (h : env i = SelectOutcome.locked) :
    sfuGo nowait env rand work flowClass i (r + 1) =
      ([Event.atomicEnter, Event.selectForUpdate nowait, Event.yieldWork,
        Event.atomicExit (exitExn work)], scopeResult work) := by
  cases work <;> simp [sfuGo, h, exitExn, scopeResult]

/-- Unfolding of a final row-lock attempt that fails to acquire the lock. -/
theorem sfuGo_last_notLocked (nowait : Bool) (env : ℕ → SelectOutcome)
    (rand : ℕ → ℚ) (work : ScopeOutcome) (flowClass : String) (i : ℕ)
    (h : env i ≠ SelectOutcome.locked) :
    sfuGo nowait env rand work flowClass i 1 =
      ([Event.atomicEnter, Event.selectForUpdate nowait, Event.atomicExit true],
       RunResult.lockFailed ("Lock failed for " ++ flowClass)) := by
  cases h2 : env i with
  | locked => exact absurd h2 h
  | contention => simp [sfuGo, h2]
  | notFound => simp [sfuGo, h2]

/-- Unfolding of a non-final row-lock attempt that fails to acquire the lock:
sleep inside the open scope, close the scope, recurse. -/
theorem sfuGo_succ_notLocked (nowait : Bool) (env : ℕ → SelectOutcome)
    (rand : ℕ → ℚ) (work : ScopeOutcome) (flowClass : String) (i r : ℕ)
    (h : env i ≠ SelectOutcome.locked) (hr : r ≠ 0) :
    sfuGo nowait env rand work flowClass i (r + 1) =
      (Event.atomicEnter :: Event.selectForUpdate nowait ::
        Event.sleep (sleepTime i (rand i)) :: Event.atomicExit false ::
        (sfuGo nowait env rand work flowClass (i + 1) r).1,
       (sfuGo nowait env rand work flowClass (i + 1) r).2) := by
  cases h2 : env i with
  | locked => exact absurd h2 h
  | contention => simp [sfuGo, h2, hr]
  | notFound => simp [sfuGo, h2, hr]

/-- Under permanent contention the row-lock loop with `r ≥ 1` remaining
iterations performs `r` queries, sleeps `r - 1` times, raises
`FlowLockFailed`, and never yields. -/
theorem sfuGo_contended (nowait : Bool) (env : ℕ → SelectOutcome) (rand : ℕ → ℚ)
    (work : ScopeOutcome) (flowClass : String)
    (henv : ∀ j, env j ≠ SelectOutcome.locked) :
    ∀ r i, 1 ≤ r →
      (sfuGo nowait env rand work flowClass i r).1.countP isSelectEvent = r ∧
      (sfuGo nowait env rand work flowClass i r).1.countP isSleepEvent = r - 1 ∧
      (sfuGo nowait env rand work flowClass i r).2 =
        RunResult.lockFailed ("Lock failed for " ++ flowClass) ∧
      Event.yieldWork ∉ (sfuGo nowait env rand work flowClass i r).1 := by
  intro r
  induction r with
  | zero => intro i h; exact absurd h (by omega)
  | succ s ih =>
    intro i _
    rcases s with _ | t
    · rw [sfuGo_last_notLocked nowait env rand work flowClass i (henv i)]
      refine ⟨?_, ?_, rfl, ?_⟩ <;>
        simp [List.countP_cons, isSelectEvent, isSleepEvent]
    · obtain ⟨h1, h2, h3, h4⟩ := ih (i + 1) (by omega)
      rw [sfuGo_succ_notLocked nowait env rand work flowClass i (t + 1) (henv i)
        t.succ_ne_zero]
      refine ⟨?_, ?_, ?_, ?_⟩ <;>
        simp [List.countP_cons, isSelectEvent, isSleepEvent, h1, h2, h3, h4] <;>
        omega

/-- C2: with `attempts = N ≥ 1` and every attempt contended (storage
contention or missing record), the Row-Lock strategy performs exactly `N`
lock attempts, sleeps exactly `N - 1` times, raises `FlowLockFailed` naming
the flow class, and never yields to the protected work. -/
theorem sfu_exhausts_attempts (l : SelectForUpdateLock) (env : ℕ → SelectOutcome)
    (rand : ℕ → ℚ) (work : ScopeOutcome) (flowClass : String)
    (hN : 1 ≤ l.attempts) (henv : ∀ j, env j ≠ SelectOutcome.locked) :
    (sfuRun l env rand work flowClass).1.countP isSelectEvent = l.attempts ∧
    (sfuRun l env rand work flowClass).1.countP isSleepEvent = l.attempts - 1 ∧
    (sfuRun l env rand work flowClass).2 =
      RunResult.lockFailed ("Lock failed for " ++ flowClass) ∧
    Event.yieldWork ∉ (sfuRun l env rand work flowClass).1 :=
  sfuGo_contended l.nowait env rand work flowClass henv l.attempts 0 hN

/-- Witness for C2 at `attempts = 2` with permanent contention. -/
theorem sfu_exhausts_attempts_witness :
    (sfuRun ⟨true, 2⟩ (fun _ => SelectOutcome.contention) (fun _ => 0)
      ScopeOutcome.ok "MyFlow").1.countP isSelectEvent = 2 ∧
    (sfuRun ⟨true, 2⟩ (fun _ => SelectOutcome.contention) (fun _ => 0)
      ScopeOutcome.ok "MyFlow").1.countP isSleepEvent = 2 - 1 ∧
    (sfuRun ⟨true, 2⟩ (fun _ => SelectOutcome.contention) (fun _ => 0)
      ScopeOutcome.ok "MyFlow").2 =
      RunResult.lockFailed ("Lock failed for " ++ "MyFlow") ∧
    Event.yieldWork ∉ (sfuRun ⟨true, 2⟩ (fun _ => SelectOutcome.contention)
      (fun _ => 0) ScopeOutcome.ok "MyFlow").1 :=
  sfu_exhausts_attempts ⟨true, 2⟩ (fun _ => SelectOutcome.contention) (fun _ => 0)
    ScopeOutcome.ok "MyFlow" (by decide) (fun _ hc => nomatch hc)

/-- C3 counterexample: with two permanently contended attempts, the first
attempt's backoff sleep occurs while that attempt's transactional scope is
still open (the sleep sits inside the `with transaction.atomic():` block), so
the trace fails the check that all sleeps happen with zero open scopes. -/
theorem sfu_sleeps_inside_open_scope :
    Event.sleep (sleepTime 0 0) ∈
      (sfuRun ⟨true, 2⟩ (fun _ => SelectOutcome.contention) (fun _ => 0)
        ScopeOutcome.ok "F").1 ∧
    allSleepsAtDepth 0 0
      (sfuRun ⟨true, 2⟩ (fun _ => SelectOutcome.contention) (fun _ => 0)
        ScopeOutcome.ok "F").1 = false := by
  constructor
  · simp [sfuRun, sfuGo]
  · rfl

/-- Every sleep in the row-lock loop happens with exactly one transactional
scope open. -/
theorem sfuGo_sleep_depth (nowait : Bool) (env : ℕ → SelectOutcome) (rand : ℕ → ℚ)
    (work : ScopeOutcome) (flowClass : String) :
    ∀ r i, allSleepsAtDepth 1 0 (sfuGo nowait env rand work flowClass i r).1 = true := by
  intro r
  induction r with
  | zero => intro i; rfl
  | succ s ih =>
    intro i
    by_cases h : env i = SelectOutcome.locked
    · rw [sfuGo_succ_locked nowait env rand work flowClass i s h]
      cases work <;> rfl
    · rcases s with _ | t
      · rw [sfuGo_last_notLocked nowait env rand work flowClass i h]
        exact rfl
      · rw [sfuGo_succ_notLocked nowait env rand work flowClass i (t + 1) h
          t.succ_ne_zero]
        exact ih (i + 1)

/-- Every sleep in the row-lock loop is immediately followed by the normal
exit of the attempt's transactional scope. -/
theorem sfuGo_sleep_then_exit (nowait : Bool) (env : ℕ → SelectOutcome)
    (rand : ℕ → ℚ) (work : ScopeOutcome) (flowClass : String) :
    ∀ r i, sleepThenExit (sfuGo nowait env rand work flowClass i r).1 = true := by
  intro r
  induction r with
  | zero => intro i; rfl
  | succ s ih =>
    intro i
    by_cases h : env i = SelectOutcome.locked
    · rw [sfuGo_succ_locked nowait env rand work flowClass i s h]
      rfl
    · rcases s with _ | t
      · rw [sfuGo_last_notLocked nowait env rand work flowClass i h]
        exact rfl
      · rw [sfuGo_succ_notLocked nowait env rand work flowClass i (t + 1) h
          t.succ_ne_zero]
        exact ih (i + 1)

/-- C3 (amended): in the Row-Lock strategy every backoff sleep happens while
the attempt's transactional scope is still open (depth exactly 1), and the
scope is closed immediately after the sleep; the code never closes the scope
before sleeping. -/
theorem sfu_sleep_ordering (l : SelectForUpdateLock) (env : ℕ → SelectOutcome)
    (rand : ℕ → ℚ) (work : ScopeOutcome) (flowClass : String) :
    allSleepsAtDepth 1 0 (sfuRun l env rand work flowClass).1 = true ∧
    sleepThenExit (sfuRun l env rand work flowClass).1 = true :=
  ⟨sfuGo_sleep_depth l.nowait env rand work flowClass l.attempts 0,
   sfuGo_sleep_then_exit l.nowait env rand work flowClass l.attempts 0⟩

/-- The row-lock loop depends on its environment only through which attempts
acquire the lock: two environments that agree on which attempts are `locked`
produce identical traces and results. -/
theorem sfuGo_ignores_contention_kind (nowait : Bool) (env env2 : ℕ → SelectOutcome)
    (rand : ℕ → ℚ) (work : ScopeOutcome) (flowClass : String)
    (h : ∀ j, env j = SelectOutcome.locked ↔ env2 j = SelectOutcome.locked) :
    ∀ r i, sfuGo nowait env rand work flowClass i r =
      sfuGo nowait env2 rand work flowClass i r := by
  intro r
  induction r with
  | zero => intro i; rfl
  | succ s ih =>
    intro i
    by_cases h1 : env i = SelectOutcome.locked
    · have h2 : env2 i = SelectOutcome.locked := (h i).mp h1
      rw [sfuGo_succ_locked nowait env rand work flowClass i s h1,
        sfuGo_succ_locked nowait env2 rand work flowClass i s h2]
    · have h2 : env2 i ≠ SelectOutcome.locked := fun hc => h1 ((h i).mpr hc)
      rcases s with _ | t
      · rw [sfuGo_last_notLocked nowait env rand work flowClass i h1,
          sfuGo_last_notLocked nowait env2 rand work flowClass i h2]
      · rw [sfuGo_succ_notLocked nowait env rand work flowClass i (t + 1) h1
            t.succ_ne_zero,
          sfuGo_succ_notLocked nowait env2 rand work flowClass i (t + 1) h2
            t.succ_ne_zero, ih (i + 1)]

/-- C5: an attempt that finds the record missing is treated identically to
lock contention: any two environments agreeing on which attempts acquire the
lock — in particular one reporting `notFound` wherever the other reports
`contention` — yield the same trace (same sleeps, same retries, same
`FlowLockFailed` on exhaustion) and the same result; there is no distinct
immediate not-found failure. -/
theorem sfu_notFound_eq_contention (l : SelectForUpdateLock)
    (env env2 : ℕ → SelectOutcome) (rand : ℕ → ℚ) (work : ScopeOutcome)
    (flowClass : String)
    (h : ∀ j, env j = SelectOutcome.locked ↔ env2 j = SelectOutcome.locked) :
    sfuRun l env rand work flowClass = sfuRun l env2 rand work flowClass :=
  sfuGo_ignores_contention_kind l.nowait env env2 rand work flowClass h l.attempts 0

/-- Witness for C5: an always-missing record behaves exactly like an
always-contended one. -/
theorem sfu_notFound_eq_contention_witness :
    sfuRun ⟨true, 3⟩ (fun _ => SelectOutcome.notFound) (fun _ => 0)
      ScopeOutcome.ok "F" =
    sfuRun ⟨true, 3⟩ (fun _ => SelectOutcome.contention) (fun _ => 0)
      ScopeOutcome.ok "F" :=
  sfu_notFound_eq_contention ⟨true, 3⟩ (fun _ => SelectOutcome.notFound)
    (fun _ => SelectOutcome.contention) (fun _ => 0) ScopeOutcome.ok "F"
    (fun _ => Iff.intro (fun hc => nomatch hc) (fun hc => nomatch hc))

/-- C1: once the Cache-Mutex strategy's insert-if-absent has succeeded, the
lock key is deleted from the cache as the very last action of the scope on
every exit path — normal return of the protected work, an exception raised by
the protected work, or a transaction (commit) failure — and only then does the
scope's outcome (including any exception) reach the caller. -/
theorem cache_release_on_all_exits (l : CacheLock) (flowLabel processPk : String)
    (pexists addOk : ℕ → Bool) (rand : ℕ → ℚ) (work : ScopeOutcome)
    (flowClass : String)
    (hacq : (cacheGo (cacheKey flowLabel processPk) l.expires pexists addOk rand 0
      l.attempts).2 = true) :
    (cacheRun l flowLabel processPk pexists addOk rand work flowClass).1.getLast? =
      some (Event.cacheDelete (cacheKey flowLabel processPk)) ∧
    (cacheRun l flowLabel processPk pexists addOk rand work flowClass).2 =
      scopeResult work := by
  cases work <;>
    simp [cacheRun, hacq, List.getLast?_append_cons, scopeResult]

/-- Witness for C1: a one-attempt acquisition that succeeds, with the
protected work raising exception 7. -/
theorem cache_release_on_all_exits_witness :
    (cacheGo (cacheKey "f" "1") (CacheLock.mk 1 120).expires (fun _ => true)
      (fun _ => true) (fun _ => 0) 0 (CacheLock.mk 1 120).attempts).2 = true ∧
    ((cacheRun ⟨1, 120⟩ "f" "1" (fun _ => true) (fun _ => true) (fun _ => 0)
        (ScopeOutcome.workRaise 7) "MyFlow").1.getLast? =
      some (Event.cacheDelete (cacheKey "f" "1")) ∧
     (cacheRun ⟨1, 120⟩ "f" "1" (fun _ => true) (fun _ => true) (fun _ => 0)
        (ScopeOutcome.workRaise 7) "MyFlow").2 =
      scopeResult (ScopeOutcome.workRaise 7)) :=
  ⟨rfl, cache_release_on_all_exits ⟨1, 120⟩ "f" "1" (fun _ => true) (fun _ => true)
    (fun _ => 0) (ScopeOutcome.workRaise 7) "MyFlow" rfl⟩

/-- C6: the backoff duration `((i + 1) * r + 2 ^ i) / 2.5` computed by both
retrying strategies (`sfuGo` and `cacheGo` both sleep for `sleepTime i (rand i)`)
is non-negative and, for a fixed random sample `r ∈ [0, 1)`, strictly grows
with the attempt index. -/
theorem sleepTime_nonneg_strictMono (r : ℚ) (h0 : 0 ≤ r) (h1 : r < 1)
    (i j : ℕ) (hij : i < j) :
    0 ≤ sleepTime i r ∧ sleepTime i r < sleepTime j r := by
  have hden : (0:ℚ) < 5 / 2 := by norm_num
  constructor
  · unfold sleepTime
    apply div_nonneg _ hden.le
    have hterm : (0:ℚ) ≤ ((i:ℚ) + 1) * r := by positivity
    have hpow : (0:ℚ) ≤ 2 ^ i := by positivity
    linarith
  · unfold sleepTime
    rw [div_lt_div_iff_of_pos_right hden]
    have hmul : ((i:ℚ) + 1) * r ≤ ((j:ℚ) + 1) * r := by
      apply mul_le_mul_of_nonneg_right _ h0
      have hcast : (i:ℚ) ≤ (j:ℚ) := by exact_mod_cast hij.le
      linarith
    have hpow : (2:ℚ) ^ i < 2 ^ j := pow_lt_pow_right₀ (by norm_num) hij
    linarith

/-- Witness for C6 at `r = 1/2`, `i = 0`, `j = 1`. -/
theorem sleepTime_nonneg_strictMono_witness :
    (0:ℚ) ≤ 1 / 2 ∧ (1 / 2 : ℚ) < 1 ∧ 0 < 1 ∧
    (0 ≤ sleepTime 0 (1 / 2) ∧ sleepTime 0 (1 / 2) < sleepTime 1 (1 / 2)) :=
  ⟨by norm_num, by norm_num, by norm_num,
   sleepTime_nonneg_strictMono (1 / 2) (by norm_num) (by norm_num) 0 1
     (by norm_num)⟩

/-- If the row-lock loop yields to protected work that raises `e`, the run's
result is exactly `workErr e` and the last event is the exceptional exit of
the transactional scope (the rollback the exception propagates through). -/
theorem sfuGo_yield_result (nowait : Bool) (env : ℕ → SelectOutcome)
    (rand : ℕ → ℚ) (e : ℕ) (flowClass : String) :
    ∀ r i, Event.yieldWork ∈
        (sfuGo nowait env rand (ScopeOutcome.workRaise e) flowClass i r).1 →
      (sfuGo nowait env rand (ScopeOutcome.workRaise e) flowClass i r).2 =
        RunResult.workErr e ∧
      (sfuGo nowait env rand (ScopeOutcome.workRaise e) flowClass i r).1.getLast? =
        some (Event.atomicExit true) := by
  intro r
  induction r with
  | zero => intro i hmem; exact absurd hmem (by simp [sfuGo])
  | succ s ih =>
    intro i hmem
    by_cases h : env i = SelectOutcome.locked
    · rw [sfuGo_succ_locked nowait env rand (ScopeOutcome.workRaise e) flowClass i s h]
      exact ⟨rfl, rfl⟩
    · rcases s with _ | t
      · rw [sfuGo_last_notLocked nowait env rand (ScopeOutcome.workRaise e)
          flowClass i h] at hmem
        exact absurd hmem (by simp)
      · rw [sfuGo_succ_notLocked nowait env rand (ScopeOutcome.workRaise e)
          flowClass i (t + 1) h t.succ_ne_zero] at hmem ⊢
        simp only [List.mem_cons, reduceCtorEq, false_or] at hmem
        have hrec := ih (i + 1) hmem
        refine ⟨hrec.1, ?_⟩
        have hne : (sfuGo nowait env rand (ScopeOutcome.workRaise e) flowClass
            (i + 1) (t + 1)).1 ≠ [] := List.ne_nil_of_mem hmem
        show (List.getLast? ([Event.atomicEnter, Event.selectForUpdate nowait,
          Event.sleep (sleepTime i (rand i)), Event.atomicExit false] ++
          (sfuGo nowait env rand (ScopeOutcome.workRaise e) flowClass
            (i + 1) (t + 1)).1)) = some (Event.atomicExit true)
        rw [List.getLast?_append_of_ne_nil _ hne]
        exact hrec.2

/-- If the Cache-Mutex run yields to protected work that raises `e`, the
result is exactly `workErr e`. -/
theorem cacheRun_yield_result (l : CacheLock) (flowLabel processPk : String)
    (pexists addOk : ℕ → Bool) (rand : ℕ → ℚ) (e : ℕ) (flowClass : String) :
    Event.yieldWork ∈ (cacheRun l flowLabel processPk pexists addOk rand
        (ScopeOutcome.workRaise e) flowClass).1 →
      (cacheRun l flowLabel processPk pexists addOk rand
        (ScopeOutcome.workRaise e) flowClass).2 = RunResult.workErr e := by
  intro hmem
  by_cases hacq : (cacheGo (cacheKey flowLabel processPk) l.expires pexists addOk
      rand 0 l.attempts).2 = true
  · simp [cacheRun, hacq]
  · simp only [Bool.not_eq_true] at hacq
    simp only [cacheRun, hacq, Bool.false_eq_true, if_false] at hmem
    exact absurd hmem
      (cacheGo_no_yield (cacheKey flowLabel processPk) l.expires pexists addOk rand
        l.attempts 0)

/-- C7: an exception raised by the caller's protected work while the lock is
held is propagated unchanged (same exception tag, never replaced or
swallowed) for every strategy, after the strategy's rollback/release actions:
the No-Op run ends in `workErr e`; a Row-Lock run that yielded ends in
`workErr e` with the scope's exceptional exit as its last event; a Cache-Mutex
run that yielded ends in `workErr e` with the cache-key deletion as its last
event. -/
theorem work_error_propagates_unchanged (flowClass processPk : String) (e : ℕ)
    (l : SelectForUpdateLock) (env : ℕ → SelectOutcome) (rand rand2 : ℕ → ℚ)
    (cl : CacheLock) (flowLabel : String) (pexists addOk : ℕ → Bool) :
    (noLockRun flowClass processPk (ScopeOutcome.workRaise e)).2 =
      RunResult.workErr e ∧
    (Event.yieldWork ∈ (sfuRun l env rand (ScopeOutcome.workRaise e) flowClass).1 →
      (sfuRun l env rand (ScopeOutcome.workRaise e) flowClass).2 =
        RunResult.workErr e ∧
      (sfuRun l env rand (ScopeOutcome.workRaise e) flowClass).1.getLast? =
        some (Event.atomicExit true)) ∧
    (Event.yieldWork ∈ (cacheRun cl flowLabel processPk pexists addOk rand2
        (ScopeOutcome.workRaise e) flowClass).1 →
      (cacheRun cl flowLabel processPk pexists addOk rand2
        (ScopeOutcome.workRaise e) flowClass).2 = RunResult.workErr e) :=
  ⟨rfl,
   fun hmem => sfuGo_yield_result l.nowait env rand e flowClass l.attempts 0 hmem,
   fun hmem => cacheRun_yield_result cl flowLabel processPk pexists addOk rand2 e
     flowClass hmem⟩

/-- Witness for C7: both retrying strategies acquire on the first attempt and
the protected work raises exception 7, which surfaces unchanged. -/
theorem work_error_propagates_unchanged_witness :
    (noLockRun "MyFlow" "1" (ScopeOutcome.workRaise 7)).2 = RunResult.workErr 7 ∧
    (sfuRun ⟨true, 1⟩ (fun _ => SelectOutcome.locked) (fun _ => 0)
      (ScopeOutcome.workRaise 7) "MyFlow").2 = RunResult.workErr 7 ∧
    (cacheRun ⟨1, 120⟩ "f" "1" (fun _ => true) (fun _ => true) (fun _ => 0)
      (ScopeOutcome.workRaise 7) "MyFlow").2 = RunResult.workErr 7 := by
  have h := work_error_propagates_unchanged "MyFlow" "1" 7 ⟨true, 1⟩
    (fun _ => SelectOutcome.locked) (fun _ => 0) (fun _ => 0) ⟨1, 120⟩ "f"
    (fun _ => true) (fun _ => true)
  exact ⟨h.1, (h.2.1 (by simp [sfuRun, sfuGo])).1, h.2.2 (by simp [cacheRun, cacheGo])⟩

end Viewflow
